import Mathlib

/-!
Shallow embedding of the wikipedia-walker crawl core.

The source of truth is `src/crawl_db.py` together with `src/models.py`
(the page/edge schema and the DB-backed queue operations) and the
orchestrator loop in `src/walker.py`.  `src/main.py` is a legacy variant
keyed by title; its persist step (the duplicate-title collision handling)
is embedded separately in the `MainScript` namespace.

Modelling conventions:
- Timestamps are `Nat` (an abstract monotone clock); every operation that
  calls `utc_now()` in Python takes the current time as an explicit `now`
  argument.
- The SQLite tables become Lean lists: `Store.pages` is the `pages` table
  (primary key `mw_page_id`), `Store.links` is the `page_links` table.
  The audit columns `created_at` / `updated_at` and the surrogate edge id,
  which no operation of the core reads, are omitted.
- Python `set` arguments arrive as `List` (iteration order made explicit).
- An ORM mutation of a row fetched by primary key becomes `updatePage`,
  which rewrites the rows holding that key.
-/

namespace WikipediaWalker

/-- `PageCrawlStatus` from `src/models.py`. -/
inductive PageCrawlStatus where
  | queued
  | in_progress
  | done
  | error
deriving DecidableEq, Repr

/-- `MediaWikiPageReference` from `src/mediawiki_api.py` (page identity plus title). -/
structure MediaWikiPageReference where
  media_wiki_page_id : Nat
  title : String
deriving DecidableEq, Repr

/-- A row of the `pages` table (`Page` in `src/models.py`). -/
structure Page where
  mw_page_id : Nat
  title : String
  crawl_status : PageCrawlStatus
  last_enqueued_at : Option Nat
  last_started_at : Option Nat
  last_finished_at : Option Nat
  discovered_at : Nat
  last_crawled_at : Option Nat
  last_links_recorded_at : Option Nat
  last_error : Option String
  last_error_at : Option Nat
deriving DecidableEq, Repr

/-- A row of the `page_links` table (`PageLink` in `src/models.py`);
the pair (from, to) is unique in the store. -/
structure PageLink where
  from_page_id : Nat
  to_page_id : Nat
  last_seen_at : Nat
deriving DecidableEq, Repr

/-- The durable store: the `pages` and `page_links` tables. -/
structure Store where
  pages : List Page
  links : List PageLink
deriving DecidableEq, Repr

/-- `MediaWikiFetchResult` from `src/mediawiki_api.py`: canonical page plus outbound links. -/
structure MediaWikiFetchResult where
  page : MediaWikiPageReference
  links : List MediaWikiPageReference
deriving DecidableEq, Repr

/-- `session.get(Page, pid)`: primary-key lookup in the pages table. -/
def getPage (s : Store) (pid : Nat) : Option Page :=
  s.pages.find? (fun p => p.mw_page_id == pid)

/-- ORM row mutation: rewrite the row(s) with primary key `pid` by `f`. -/
def updatePage (s : Store) (pid : Nat) (f : Page → Page) : Store :=
  { s with pages := s.pages.map (fun p => if p.mw_page_id == pid then f p else p) }

/-- A freshly inserted `Page(mw_page_id=..., title=...)` with the column
defaults of `src/models.py` (status `queued`, timestamps null,
`discovered_at` = now). -/
def newPage (ref : MediaWikiPageReference) (now : Nat) : Page :=
  { mw_page_id := ref.media_wiki_page_id
    title := ref.title
    crawl_status := PageCrawlStatus.queued
    last_enqueued_at := none
    last_started_at := none
    last_finished_at := none
    discovered_at := now
    last_crawled_at := none
    last_links_recorded_at := none
    last_error := none
    last_error_at := none }

/-- `get_or_create_page` (src/crawl_db.py:64): look up by id; insert with
defaults if absent; refresh the title in place if it drifted. -/
def get_or_create_page (s : Store) (ref : MediaWikiPageReference) (now : Nat) : Store :=
  match getPage s ref.media_wiki_page_id with
  | none => { s with pages := s.pages ++ [newPage ref now] }
  | some page =>
    if page.title = ref.title then s
    else updatePage s ref.media_wiki_page_id (fun p => { p with title := ref.title })

/-- `enqueue_page` (src/crawl_db.py:80): get-or-create, then
force `done` if links were already recorded, else queue the page
unless it is already done or in progress. -/
def enqueue_page (s : Store) (ref : MediaWikiPageReference) (now : Nat) : Store :=
  let s1 := get_or_create_page s ref now
  match getPage s1 ref.media_wiki_page_id with
  | none => s1
  | some page =>
    if page.last_links_recorded_at ≠ none then
      updatePage s1 ref.media_wiki_page_id (fun p => { p with crawl_status := PageCrawlStatus.done })
    else if page.crawl_status = PageCrawlStatus.done ∨ page.crawl_status = PageCrawlStatus.in_progress then
      s1
    else
      updatePage s1 ref.media_wiki_page_id
        (fun p => { p with crawl_status := PageCrawlStatus.queued, last_enqueued_at := some now })

/-- The edge upsert inside `record_links` (src/crawl_db.py:116):
find the (from, to) row; update its `last_seen_at` if present
(`session.scalar` returns the first match), else insert a new row.
Returns the new link table and whether a row was added. -/
def upsert_link : List PageLink → Nat → Nat → Nat → List PageLink × Bool
  | [], fid, tid, now => ([{ from_page_id := fid, to_page_id := tid, last_seen_at := now }], true)
  | l :: rest, fid, tid, now =>
    if l.from_page_id == fid && l.to_page_id == tid then
      ({ l with last_seen_at := now } :: rest, false)
    else
      let r := upsert_link rest fid tid now
      (l :: r.1, r.2)

/-- One iteration of the loop in `record_links` (src/crawl_db.py:112):
get-or-create the target page, enqueue it, and upsert the edge,
bumping the appropriate counter. -/
def record_links_step (from_id now : Nat) (acc : Store × Nat × Nat)
    (to_ref : MediaWikiPageReference) : Store × Nat × Nat :=
  let st := get_or_create_page acc.1 to_ref now
  let st1 := enqueue_page st to_ref now
  let r := upsert_link st1.links from_id to_ref.media_wiki_page_id now
  if r.2 then ({ st1 with links := r.1 }, acc.2.1 + 1, acc.2.2)
  else ({ st1 with links := r.1 }, acc.2.1, acc.2.2 + 1)

/-- `record_links` (src/crawl_db.py:99): for each outbound reference,
get-or-create the page, enqueue it, and upsert the edge; counts
(links_added, links_already_existing). -/
def record_links (s : Store) (from_id : Nat) (to_pages : List MediaWikiPageReference)
    (now : Nat) : Store × Nat × Nat :=
  to_pages.foldl (record_links_step from_id now) (s, 0, 0)

/-- The WHERE clause of `next_queued_page` (src/crawl_db.py:137):
`crawl_status == queued` and `last_links_recorded_at` null. -/
def queuedCandidates (s : Store) : List Page :=
  s.pages.filter
    (fun p => decide (p.crawl_status = PageCrawlStatus.queued) &&
      decide (p.last_links_recorded_at = none))

/-- The ORDER BY key of `next_queued_page`: `last_enqueued_at` ascending
with nulls last, tie-broken by `mw_page_id` ascending. -/
def queueKey (p : Page) : Nat × Nat × Nat :=
  match p.last_enqueued_at with
  | some t => (0, t, p.mw_page_id)
  | none => (1, 0, p.mw_page_id)

/-- Lexicographic strict order on queue keys. -/
def keyLt (a b : Nat × Nat × Nat) : Bool :=
  decide (a.1 < b.1) ||
    (a.1 == b.1 && (decide (a.2.1 < b.2.1) || (a.2.1 == b.2.1 && decide (a.2.2 < b.2.2))))

/-- `next_queued_page` (src/crawl_db.py:132): the minimal queued,
not-yet-recorded page under the queue ordering, if any. -/
def next_queued_page (s : Store) : Option Page :=
  (queuedCandidates s).foldl
    (fun best p =>
      match best with
      | none => some p
      | some q => if keyLt (queueKey p) (queueKey q) then some p else some q)
    none

/-- `get_outgoing_pages` (src/crawl_db.py:146): join the link rows with
`from_page_id = pid` against the pages table on `to_page_id`. -/
def get_outgoing_pages (s : Store) (pid : Nat) : List MediaWikiPageReference :=
  (s.links.filter (fun l => l.from_page_id == pid)).filterMap
    (fun l =>
      (getPage s l.to_page_id).map
        (fun p => { media_wiki_page_id := p.mw_page_id, title := p.title }))

/-- `seed_from_start_page` (src/crawl_db.py:158): enqueue the start page
if its links were never recorded; otherwise enqueue each of its
currently known outgoing pages instead. -/
def seed_from_start_page (s : Store) (start_page : MediaWikiPageReference) (now : Nat) : Store :=
  let s1 := get_or_create_page s start_page now
  match getPage s1 start_page.media_wiki_page_id with
  | none => s1
  | some start_row =>
    if start_row.last_links_recorded_at = none then
      enqueue_page s1 start_page now
    else
      (get_outgoing_pages s1 start_row.mw_page_id).foldl
        (fun st ref => enqueue_page st ref now) s1

/-- The row update of `requeue_interrupted_in_progress_pages`: an
interrupted in-progress row goes back to `queued` with a refreshed
`last_enqueued_at`; any other row is untouched. -/
def requeueFix (now : Nat) (p : Page) : Page :=
  if decide (p.crawl_status = PageCrawlStatus.in_progress) &&
      decide (p.last_links_recorded_at = none) then
    { p with crawl_status := PageCrawlStatus.queued, last_enqueued_at := some now }
  else p

/-- `requeue_interrupted_in_progress_pages` (src/crawl_db.py:176):
bulk-update every `in_progress` row without recorded links back to
`queued`, refreshing `last_enqueued_at`. -/
def requeue_interrupted_in_progress_pages (s : Store) (now : Nat) : Store :=
  { s with pages := s.pages.map (requeueFix now) }

/-- `claim_next_page_from_queue` (src/crawl_db.py:204): select the next
queued page, mark it `in_progress` with `last_started_at = now`, and
return its identity. -/
def claim_next_page_from_queue (s : Store) (now : Nat) : Store × Option (Nat × String) :=
  match next_queued_page s with
  | none => (s, none)
  | some page =>
    (updatePage s page.mw_page_id
      (fun p => { p with crawl_status := PageCrawlStatus.in_progress, last_started_at := some now }),
     some (page.mw_page_id, page.title))

/-- `expand_page_from_cached_links` (src/crawl_db.py:222): if the page
already has recorded links, enqueue its known outgoing pages and mark it
done; returns (expanded_from_cache, links_added, links_existing). -/
def expand_page_from_cached_links (s : Store) (pid : Nat) (now : Nat) :
    Store × Bool × Nat × Nat :=
  match getPage s pid with
  | none => (s, true, 0, 0)
  | some db_page =>
    if db_page.last_links_recorded_at = none then (s, false, 0, 0)
    else
      let outgoing := get_outgoing_pages s db_page.mw_page_id
      let s1 := outgoing.foldl (fun st ref => enqueue_page st ref now) s
      let s2 := updatePage s1 pid
        (fun p => { p with crawl_status := PageCrawlStatus.done, last_finished_at := some now })
      (s2, true, 0, outgoing.length)

/-- `persist_fetched_links` (src/crawl_db.py:248): refresh the canonical
title, record edges and enqueue discovered pages, stamp
`last_crawled_at` and `last_links_recorded_at`, clear error fields, and
mark the page done.  `none` models the assertion failure when the page
row is missing. -/
def persist_fetched_links (s : Store) (pid : Nat) (fetch : MediaWikiFetchResult)
    (now : Nat) : Option (Store × Nat × Nat) :=
  match getPage s pid with
  | none => none
  | some db_page =>
    let s1 :=
      if fetch.page.title = db_page.title then s
      else updatePage s pid (fun p => { p with title := fetch.page.title })
    let r := record_links s1 pid fetch.links now
    let s2 := updatePage r.1 pid
      (fun p =>
        { p with
          last_crawled_at := some now
          last_links_recorded_at := some now
          last_error := none
          last_error_at := none
          crawl_status := PageCrawlStatus.done
          last_finished_at := some now })
    some (s2, r.2.1, r.2.2)

/-- `record_page_error` (src/crawl_db.py:284): mark the page `error`
with the formatted message and timestamps. -/
def record_page_error (s : Store) (pid : Nat) (msg : String) (now : Nat) : Store :=
  match getPage s pid with
  | none => s
  | some _ =>
    updatePage s pid
      (fun p =>
        { p with
          crawl_status := PageCrawlStatus.error
          last_error := some msg
          last_error_at := some now
          last_finished_at := some now })

/-- The orchestrator's per-iteration cache-expansion check
(src/walker.py:364-379): after claiming `pid`, a network fetch is issued
for the page's current title only when `last_links_recorded_at` is null;
otherwise (or when the row vanished) no fetch happens. -/
def walk_fetch_title (s : Store) (pid : Nat) : Option String :=
  match getPage s pid with
  | none => none
  | some db_page =>
    if db_page.last_links_recorded_at = none then some db_page.title
    else none

/-- The core store operations quantified over by the frame invariant. -/
inductive CoreOp where
  | enqueue (ref : MediaWikiPageReference) (now : Nat)
  | requeue (now : Nat)
  | claim (now : Nat)
  | expand (pid : Nat) (now : Nat)
  | recordError (pid : Nat) (msg : String) (now : Nat)

/-- Apply one core operation to the store (discarding returned values). -/
def applyCoreOp (op : CoreOp) (s : Store) : Store :=
  match op with
  | CoreOp.enqueue ref now => enqueue_page s ref now
  | CoreOp.requeue now => requeue_interrupted_in_progress_pages s now
  | CoreOp.claim now => (claim_next_page_from_queue s now).1
  | CoreOp.expand pid now => (expand_page_from_cached_links s pid now).1
  | CoreOp.recordError pid msg now => record_page_error s pid msg now

/-- Run a sequence of core operations. -/
def run_core_ops (ops : List CoreOp) (s : Store) : Store :=
  ops.foldl (fun st op => applyCoreOp op st) s

/-- The `last_links_recorded_at` column of the row with key `pid`. -/
def llraOf (s : Store) (pid : Nat) : Option Nat :=
  match getPage s pid with
  | none => none
  | some p => p.last_links_recorded_at

namespace MainScript

/-!
Embedding of the legacy title-keyed variant in `src/main.py`, needed for
the duplicate-title collision behaviour of its persist step
(src/main.py:360-391).  Here pages are keyed by an autoincrement `id`
and `title` is unique; `MStore.next_id` models the autoincrement counter.
-/

/-- A row of `src/main.py`'s `pages` table (autoincrement id, unique title). -/
structure MPage where
  id : Nat
  title : String
  crawl_status : PageCrawlStatus
  last_enqueued_at : Option Nat
  last_started_at : Option Nat
  last_finished_at : Option Nat
  discovered_at : Nat
  last_crawled_at : Option Nat
  last_links_recorded_at : Option Nat
  last_error : Option String
  last_error_at : Option Nat
deriving DecidableEq, Repr

/-- The store of `src/main.py`: pages, links, autoincrement counter. -/
structure MStore where
  pages : List MPage
  links : List PageLink
  next_id : Nat
deriving DecidableEq, Repr

/-- Lookup by primary key `id`. -/
def getById (s : MStore) (pid : Nat) : Option MPage :=
  s.pages.find? (fun p => p.id == pid)

/-- `session.scalar(select(Page).where(Page.title == title))`: lookup by title. -/
def getByTitle (s : MStore) (title : String) : Option MPage :=
  s.pages.find? (fun p => decide (p.title = title))

/-- ORM row mutation by id. -/
def updateById (s : MStore) (pid : Nat) (f : MPage → MPage) : MStore :=
  { s with pages := s.pages.map (fun p => if p.id == pid then f p else p) }

/-- A freshly inserted `Page(title=title)` with column defaults. -/
def newMPage (pid : Nat) (title : String) (now : Nat) : MPage :=
  { id := pid
    title := title
    crawl_status := PageCrawlStatus.queued
    last_enqueued_at := none
    last_started_at := none
    last_finished_at := none
    discovered_at := now
    last_crawled_at := none
    last_links_recorded_at := none
    last_error := none
    last_error_at := none }

/-- `get_or_create_page` (src/main.py:199): lookup by title, insert if absent. -/
def get_or_create_page (s : MStore) (title : String) (now : Nat) : MStore :=
  match getByTitle s title with
  | some _ => s
  | none =>
    { s with pages := s.pages ++ [newMPage s.next_id title now], next_id := s.next_id + 1 }

/-- `enqueue_page` (src/main.py:209), keyed by title. -/
def enqueue_page (s : MStore) (title : String) (now : Nat) : MStore :=
  let s1 := get_or_create_page s title now
  match getByTitle s1 title with
  | none => s1
  | some page =>
    if page.last_links_recorded_at ≠ none then
      updateById s1 page.id (fun p => { p with crawl_status := PageCrawlStatus.done })
    else if page.crawl_status = PageCrawlStatus.done ∨ page.crawl_status = PageCrawlStatus.in_progress then
      s1
    else
      updateById s1 page.id
        (fun p => { p with crawl_status := PageCrawlStatus.queued, last_enqueued_at := some now })

/-- `record_links` (src/main.py:225): get-or-create and enqueue each
target title, upserting the edge rows. -/
def record_links (s : MStore) (from_id : Nat) (to_titles : List String) (now : Nat) : MStore :=
  to_titles.foldl
    (fun st to_title =>
      let st1 := get_or_create_page st to_title now
      match getByTitle st1 to_title with
      | none => st1
      | some to_page =>
        let st2 := enqueue_page st1 to_page.title now
        let r := upsert_link st2.links from_id to_page.id now
        { st2 with links := r.1 })
    s

/-- The persist step of `walk` (src/main.py:360-391): on a canonical-title
change, either adopt the new title or — when a different row already
holds it — record a duplicate-title error on this row; then record the
links and unconditionally stamp timestamps, CLEAR the error fields, and
mark the row done. -/
def persist_after_fetch (s : MStore) (page_id : Nat) (fetch_title : String)
    (fetch_links : List String) (now : Nat) : MStore :=
  match getById s page_id with
  | none => s
  | some db_page2 =>
    let s1 :=
      if fetch_title = db_page2.title then s
      else
        match getByTitle s fetch_title with
        | none => updateById s page_id (fun p => { p with title := fetch_title })
        | some _ =>
          updateById s page_id
            (fun p =>
              { p with
                last_error := some "Duplicate title row detected; canonical title already exists"
                last_error_at := some now })
    let s2 := record_links s1 page_id fetch_links now
    updateById s2 page_id
      (fun p =>
        { p with
          last_crawled_at := some now
          last_links_recorded_at := some now
          last_error := none
          last_error_at := none
          crawl_status := PageCrawlStatus.done
          last_finished_at := some now })

end MainScript

/-! ### Concrete stores used to instantiate the theorems -/

/-- A page whose links were recorded at time 5 (done). -/
def crawledPage : Page :=
  { mw_page_id := 1, title := "A", crawl_status := PageCrawlStatus.done,
    last_enqueued_at := some 1, last_started_at := some 2, last_finished_at := some 5,
    discovered_at := 0, last_crawled_at := some 5, last_links_recorded_at := some 5,
    last_error := none, last_error_at := none }

/-- A queued page that has never been crawled. -/
def queuedPage : Page :=
  { mw_page_id := 2, title := "B", crawl_status := PageCrawlStatus.queued,
    last_enqueued_at := some 1, last_started_at := none, last_finished_at := none,
    discovered_at := 0, last_crawled_at := none, last_links_recorded_at := none,
    last_error := none, last_error_at := none }

/-- An in-progress page that has never recorded links (interrupted). -/
def interruptedPage : Page :=
  { mw_page_id := 3, title := "C", crawl_status := PageCrawlStatus.in_progress,
    last_enqueued_at := some 1, last_started_at := some 2, last_finished_at := none,
    discovered_at := 0, last_crawled_at := none, last_links_recorded_at := none,
    last_error := none, last_error_at := none }

/-- An errored page that has never recorded links. -/
def erroredPage : Page :=
  { mw_page_id := 4, title := "D", crawl_status := PageCrawlStatus.error,
    last_enqueued_at := some 1, last_started_at := some 2, last_finished_at := some 3,
    discovered_at := 0, last_crawled_at := none, last_links_recorded_at := none,
    last_error := some "boom", last_error_at := some 3 }

/-- Store with one crawled page. -/
def storeCrawled : Store := { pages := [crawledPage], links := [] }

/-- Store with one interrupted page. -/
def storeInterrupted : Store := { pages := [interruptedPage], links := [] }

/-- Store with a crawled page and a queued page. -/
def storeTwo : Store := { pages := [crawledPage, queuedPage], links := [] }

/-- Store with a queued page and an errored page. -/
def storeQueuedErrored : Store := { pages := [queuedPage, erroredPage], links := [] }

/-- Store for the re-seed scenario: a crawled start page 1 with known
outgoing pages 2 ("B", queued-eligible) and 5 ("E", never enqueued). -/
def reseedTargetPage : Page :=
  { mw_page_id := 5, title := "E", crawl_status := PageCrawlStatus.queued,
    last_enqueued_at := none, last_started_at := none, last_finished_at := none,
    discovered_at := 0, last_crawled_at := none, last_links_recorded_at := none,
    last_error := none, last_error_at := none }

/-- Store for the start-page re-seed scenario. -/
def storeReseed : Store :=
  { pages := [crawledPage, queuedPage, reseedTargetPage],
    links := [{ from_page_id := 1, to_page_id := 2, last_seen_at := 5 },
              { from_page_id := 1, to_page_id := 5, last_seen_at := 5 }] }

/-- A second queued page, enqueued later than `queuedPage`. -/
def queuedPageLater : Page :=
  { mw_page_id := 6, title := "F", crawl_status := PageCrawlStatus.queued,
    last_enqueued_at := some 2, last_started_at := none, last_finished_at := none,
    discovered_at := 0, last_crawled_at := none, last_links_recorded_at := none,
    last_error := none, last_error_at := none }

/-- Store with two queued pages, for sequential claims. -/
def storeTwoQueued : Store := { pages := [queuedPage, queuedPageLater], links := [] }

/-- `src/main.py` scenario: the claimed row 1 ("A", in progress, links not
yet recorded). -/
def collisionClaimed : MainScript.MPage :=
  { id := 1, title := "A", crawl_status := PageCrawlStatus.in_progress,
    last_enqueued_at := some 1, last_started_at := some 2, last_finished_at := none,
    discovered_at := 0, last_crawled_at := none, last_links_recorded_at := none,
    last_error := none, last_error_at := none }

/-- `src/main.py` scenario: a different pre-existing row 2 that already
holds the canonical title "B". -/
def collisionExisting : MainScript.MPage :=
  { id := 2, title := "B", crawl_status := PageCrawlStatus.done,
    last_enqueued_at := some 1, last_started_at := some 2, last_finished_at := some 3,
    discovered_at := 0, last_crawled_at := some 3, last_links_recorded_at := some 3,
    last_error := none, last_error_at := none }

/-- `src/main.py` store for the duplicate-title collision scenario. -/
def collisionStore : MainScript.MStore :=
  { pages := [collisionClaimed, collisionExisting], links := [], next_id := 3 }

/-! ### Helper lemmas about the store -/

theorem getPage_key {s : Store} {pid : Nat} {p : Page} (h : getPage s pid = some p) :
    p.mw_page_id = pid := by
  have := List.find?_some h
  simpa using this

theorem getPage_mem {s : Store} {pid : Nat} {p : Page} (h : getPage s pid = some p) :
    p ∈ s.pages :=
  List.mem_of_find?_eq_some h

theorem find?_map_key (l : List Page) (g : Page → Page)
    (hg : ∀ p, (g p).mw_page_id = p.mw_page_id) (pid : Nat) :
    (l.map g).find? (fun p => p.mw_page_id == pid)
      = (l.find? (fun p => p.mw_page_id == pid)).map g := by
  induction l with
  | nil => rfl
  | cons a l ih =>
    by_cases h : a.mw_page_id = pid
    · simp [List.find?_cons, hg, h]
    · simp [List.find?_cons, hg, h, ih]

theorem getPage_updatePage (s : Store) (pid pid' : Nat) (f : Page → Page)
    (hf : ∀ p, (f p).mw_page_id = p.mw_page_id) :
    getPage (updatePage s pid f) pid'
      = (getPage s pid').map (fun p => if p.mw_page_id == pid then f p else p) := by
  unfold getPage updatePage
  exact find?_map_key _ _
    (fun p => by by_cases h : p.mw_page_id = pid <;> simp [h, hf]) _

theorem getPage_updatePage_self {s : Store} {pid : Nat} {f : Page → Page} {p : Page}
    (hf : ∀ q, (f q).mw_page_id = q.mw_page_id) (h : getPage s pid = some p) :
    getPage (updatePage s pid f) pid = some (f p) := by
  rw [getPage_updatePage s pid pid f hf, h]
  simp [getPage_key h]

theorem getPage_updatePage_ne {s : Store} {pid pid' : Nat} (f : Page → Page)
    (hf : ∀ q, (f q).mw_page_id = q.mw_page_id) (hne : pid' ≠ pid) :
    getPage (updatePage s pid f) pid' = getPage s pid' := by
  rw [getPage_updatePage s pid pid' f hf]
  cases hq : getPage s pid' with
  | none => rfl
  | some q =>
    have hk := getPage_key hq
    simp [hk, hne]

theorem getPage_append (s : Store) (l : List Page) (pid : Nat) :
    getPage { s with pages := s.pages ++ l } pid
      = ((getPage s pid).or (l.find? (fun q => q.mw_page_id == pid))) := by
  unfold getPage
  exact List.find?_append

theorem get_or_create_existing (now : Nat) {s : Store} {ref : MediaWikiPageReference} {p : Page}
    (h : getPage s ref.media_wiki_page_id = some p) :
    get_or_create_page s ref now
      = if p.title = ref.title then s
        else updatePage s ref.media_wiki_page_id (fun q => { q with title := ref.title }) := by
  unfold get_or_create_page
  rw [h]

theorem get_or_create_missing (now : Nat) {s : Store} {ref : MediaWikiPageReference}
    (h : getPage s ref.media_wiki_page_id = none) :
    get_or_create_page s ref now = { s with pages := s.pages ++ [newPage ref now] } := by
  unfold get_or_create_page
  rw [h]

theorem getPage_get_or_create_self (now : Nat) {s : Store} {ref : MediaWikiPageReference}
    {p : Page} (h : getPage s ref.media_wiki_page_id = some p) :
    getPage (get_or_create_page s ref now) ref.media_wiki_page_id
      = some (if p.title = ref.title then p else { p with title := ref.title }) := by
  rw [get_or_create_existing now h]
  by_cases ht : p.title = ref.title
  · simp [ht, h]
  · rw [if_neg ht, if_neg ht]
    exact getPage_updatePage_self (fun q => rfl) h

theorem getPage_get_or_create_new (now : Nat) {s : Store} {ref : MediaWikiPageReference}
    (h : getPage s ref.media_wiki_page_id = none) :
    getPage (get_or_create_page s ref now) ref.media_wiki_page_id = some (newPage ref now) := by
  rw [get_or_create_missing now h, getPage_append, h]
  simp [newPage, List.find?_cons]

theorem getPage_get_or_create_other (s : Store) (ref : MediaWikiPageReference) (now pid : Nat)
    (hne : pid ≠ ref.media_wiki_page_id) :
    getPage (get_or_create_page s ref now) pid = getPage s pid := by
  cases h : getPage s ref.media_wiki_page_id with
  | none =>
    rw [get_or_create_missing now h, getPage_append]
    have hfind : List.find? (fun q => q.mw_page_id == pid) [newPage ref now] = none := by
      simp [newPage, List.find?_cons, Ne.symm hne]
    rw [hfind]
    cases getPage s pid <;> rfl
  | some p =>
    rw [get_or_create_existing now h]
    by_cases ht : p.title = ref.title
    · rw [if_pos ht]
    · rw [if_neg ht]
      exact getPage_updatePage_ne _ (fun q => rfl) hne

/-! ### Reduction and characterization lemmas for `enqueue_page` -/

theorem enqueue_page_eq_of_some {s : Store} {ref : MediaWikiPageReference} {now : Nat}
    {page : Page}
    (h1 : getPage (get_or_create_page s ref now) ref.media_wiki_page_id = some page) :
    enqueue_page s ref now =
      (if page.last_links_recorded_at ≠ none then
        updatePage (get_or_create_page s ref now) ref.media_wiki_page_id
          (fun p => { p with crawl_status := PageCrawlStatus.done })
      else if page.crawl_status = PageCrawlStatus.done ∨
          page.crawl_status = PageCrawlStatus.in_progress then
        get_or_create_page s ref now
      else
        updatePage (get_or_create_page s ref now) ref.media_wiki_page_id
          (fun p =>
            { p with crawl_status := PageCrawlStatus.queued, last_enqueued_at := some now })) := by
  simp only [enqueue_page]
  rw [h1]

theorem enqueue_page_eq_of_none {s : Store} {ref : MediaWikiPageReference} {now : Nat}
    (h1 : getPage (get_or_create_page s ref now) ref.media_wiki_page_id = none) :
    enqueue_page s ref now = get_or_create_page s ref now := by
  simp only [enqueue_page]
  rw [h1]

theorem enqueue_page_crawled {s : Store} {ref : MediaWikiPageReference} {now : Nat} {p : Page}
    (h : getPage s ref.media_wiki_page_id = some p)
    (hl : p.last_links_recorded_at ≠ none) :
    ∃ q, getPage (enqueue_page s ref now) ref.media_wiki_page_id = some q ∧
      q.crawl_status = PageCrawlStatus.done ∧
      q.last_links_recorded_at = p.last_links_recorded_at ∧
      q.last_enqueued_at = p.last_enqueued_at := by
  have h1 := getPage_get_or_create_self now h
  by_cases ht : p.title = ref.title
  · rw [if_pos ht] at h1
    rw [enqueue_page_eq_of_some h1, if_pos hl]
    exact ⟨_, getPage_updatePage_self (fun q => rfl) h1, rfl, rfl, rfl⟩
  · rw [if_neg ht] at h1
    have hl' : ({ p with title := ref.title } : Page).last_links_recorded_at ≠ none := hl
    rw [enqueue_page_eq_of_some h1, if_pos hl']
    exact ⟨_, getPage_updatePage_self (fun q => rfl) h1, rfl, rfl, rfl⟩

theorem enqueue_page_eligible {s : Store} {ref : MediaWikiPageReference} {now : Nat} {p : Page}
    (h : getPage s ref.media_wiki_page_id = some p)
    (hl : p.last_links_recorded_at = none)
    (hd : p.crawl_status ≠ PageCrawlStatus.done)
    (hi : p.crawl_status ≠ PageCrawlStatus.in_progress) :
    ∃ q, getPage (enqueue_page s ref now) ref.media_wiki_page_id = some q ∧
      q.crawl_status = PageCrawlStatus.queued ∧
      q.last_enqueued_at = some now ∧
      q.last_links_recorded_at = none := by
  have h1 := getPage_get_or_create_self now h
  by_cases ht : p.title = ref.title
  · rw [if_pos ht] at h1
    rw [enqueue_page_eq_of_some h1, if_neg (by simp [hl]), if_neg (by simp [hd, hi])]
    exact ⟨_, getPage_updatePage_self (fun q => rfl) h1, rfl, rfl, hl⟩
  · rw [if_neg ht] at h1
    rw [enqueue_page_eq_of_some h1, if_neg (by simp [hl]), if_neg (by simp [hd, hi])]
    exact ⟨_, getPage_updatePage_self (fun q => rfl) h1, rfl, rfl, hl⟩

theorem enqueue_page_blocked {s : Store} {ref : MediaWikiPageReference} {now : Nat} {p : Page}
    (h : getPage s ref.media_wiki_page_id = some p)
    (hl : p.last_links_recorded_at = none)
    (hs : p.crawl_status = PageCrawlStatus.done ∨ p.crawl_status = PageCrawlStatus.in_progress) :
    ∃ q, getPage (enqueue_page s ref now) ref.media_wiki_page_id = some q ∧
      q.crawl_status = p.crawl_status ∧
      q.last_enqueued_at = p.last_enqueued_at ∧
      q.last_links_recorded_at = none := by
  have h1 := getPage_get_or_create_self now h
  by_cases ht : p.title = ref.title
  · rw [if_pos ht] at h1
    rw [enqueue_page_eq_of_some h1, if_neg (by simp [hl]), if_pos hs]
    exact ⟨_, h1, rfl, rfl, hl⟩
  · rw [if_neg ht] at h1
    rw [enqueue_page_eq_of_some h1, if_neg (by simp [hl]), if_pos hs]
    exact ⟨_, h1, rfl, rfl, hl⟩

theorem enqueue_page_other {s : Store} {ref : MediaWikiPageReference} {now pid : Nat}
    (hne : pid ≠ ref.media_wiki_page_id) :
    getPage (enqueue_page s ref now) pid = getPage s pid := by
  have hoc := getPage_get_or_create_other s ref now pid hne
  cases h1 : getPage (get_or_create_page s ref now) ref.media_wiki_page_id with
  | none => rw [enqueue_page_eq_of_none h1]; exact hoc
  | some page =>
    rw [enqueue_page_eq_of_some h1]
    by_cases hb : page.last_links_recorded_at ≠ none
    · rw [if_pos hb]
      exact (getPage_updatePage_ne
        (fun p => { p with crawl_status := PageCrawlStatus.done }) (fun q => rfl) hne).trans hoc
    · rw [if_neg hb]
      by_cases hs : page.crawl_status = PageCrawlStatus.done ∨
          page.crawl_status = PageCrawlStatus.in_progress
      · rw [if_pos hs]; exact hoc
      · rw [if_neg hs]
        exact (getPage_updatePage_ne
          (fun p => { p with crawl_status := PageCrawlStatus.queued, last_enqueued_at := some now })
          (fun q => rfl) hne).trans hoc

/-! ### Frame lemmas: `last_links_recorded_at` and row presence are preserved -/

theorem llraOf_eq_some {s : Store} {pid t : Nat} (h : llraOf s pid = some t) :
    ∃ q, getPage s pid = some q ∧ q.last_links_recorded_at = some t := by
  unfold llraOf at h
  cases hq : getPage s pid with
  | none => rw [hq] at h; cases h
  | some q => rw [hq] at h; exact ⟨q, rfl, h⟩

theorem llraOf_of_getPage {s : Store} {pid : Nat} {q : Page} (hq : getPage s pid = some q) :
    llraOf s pid = q.last_links_recorded_at := by
  unfold llraOf
  rw [hq]

theorem llraOf_updatePage {s : Store} {pid0 pid t : Nat} (f : Page → Page)
    (hid : ∀ p, (f p).mw_page_id = p.mw_page_id)
    (hl : ∀ p, (f p).last_links_recorded_at = p.last_links_recorded_at)
    (h : llraOf s pid = some t) : llraOf (updatePage s pid0 f) pid = some t := by
  obtain ⟨q, hq, hql⟩ := llraOf_eq_some h
  have hg := getPage_updatePage s pid0 pid f hid
  rw [hq] at hg
  rw [llraOf_of_getPage hg]
  by_cases hb : q.mw_page_id = pid0
  · simp [hb, hl, hql]
  · simp [hb, hql]

theorem llraOf_map_pages {s : Store} {pid t : Nat} (g : Page → Page)
    (hid : ∀ p, (g p).mw_page_id = p.mw_page_id)
    (hl : ∀ p, (g p).last_links_recorded_at = p.last_links_recorded_at)
    (h : llraOf s pid = some t) :
    llraOf { s with pages := s.pages.map g } pid = some t := by
  obtain ⟨q, hq, hql⟩ := llraOf_eq_some h
  have hq' : s.pages.find? (fun p => p.mw_page_id == pid) = some q := hq
  have hfind : getPage { s with pages := s.pages.map g } pid = some (g q) := by
    show (s.pages.map g).find? (fun p => p.mw_page_id == pid) = some (g q)
    rw [find?_map_key s.pages g hid pid, hq']
    rfl
  rw [llraOf_of_getPage hfind, hl, hql]

theorem llraOf_append {s : Store} {pid t : Nat} (l : List Page)
    (h : llraOf s pid = some t) :
    llraOf { s with pages := s.pages ++ l } pid = some t := by
  obtain ⟨q, hq, hql⟩ := llraOf_eq_some h
  have hfind : getPage { s with pages := s.pages ++ l } pid = some q := by
    rw [getPage_append, hq]
    rfl
  rw [llraOf_of_getPage hfind, hql]

theorem llraOf_get_or_create {s : Store} (ref : MediaWikiPageReference) (now : Nat)
    {pid t : Nat} (h : llraOf s pid = some t) :
    llraOf (get_or_create_page s ref now) pid = some t := by
  cases hr : getPage s ref.media_wiki_page_id with
  | none => rw [get_or_create_missing now hr]; exact llraOf_append _ h
  | some p =>
    rw [get_or_create_existing now hr]
    by_cases ht : p.title = ref.title
    · rw [if_pos ht]; exact h
    · rw [if_neg ht]
      exact llraOf_updatePage (fun q => { q with title := ref.title }) (fun q => rfl)
        (fun q => rfl) h

theorem llraOf_enqueue {s : Store} (ref : MediaWikiPageReference) (now : Nat)
    {pid t : Nat} (h : llraOf s pid = some t) :
    llraOf (enqueue_page s ref now) pid = some t := by
  have h1 := llraOf_get_or_create ref now h
  cases hm : getPage (get_or_create_page s ref now) ref.media_wiki_page_id with
  | none => rw [enqueue_page_eq_of_none hm]; exact h1
  | some page =>
    rw [enqueue_page_eq_of_some hm]
    by_cases hb : page.last_links_recorded_at ≠ none
    · rw [if_pos hb]
      exact llraOf_updatePage (fun p => { p with crawl_status := PageCrawlStatus.done })
        (fun q => rfl) (fun q => rfl) h1
    · rw [if_neg hb]
      by_cases hs : page.crawl_status = PageCrawlStatus.done ∨
          page.crawl_status = PageCrawlStatus.in_progress
      · rw [if_pos hs]; exact h1
      · rw [if_neg hs]
        exact llraOf_updatePage
          (fun p => { p with crawl_status := PageCrawlStatus.queued, last_enqueued_at := some now })
          (fun q => rfl) (fun q => rfl) h1

theorem llraOf_foldl_enqueue (refs : List MediaWikiPageReference) (now : Nat)
    {s : Store} {pid t : Nat} (h : llraOf s pid = some t) :
    llraOf (refs.foldl (fun st ref => enqueue_page st ref now) s) pid = some t := by
  induction refs generalizing s with
  | nil => exact h
  | cons r rs ih => exact ih (llraOf_enqueue r now h)

theorem requeueFix_id (now : Nat) (p : Page) : (requeueFix now p).mw_page_id = p.mw_page_id := by
  unfold requeueFix
  by_cases hc : (decide (p.crawl_status = PageCrawlStatus.in_progress) &&
      decide (p.last_links_recorded_at = none)) = true
  · simp [hc]
  · simp [hc]

theorem requeueFix_llra (now : Nat) (p : Page) :
    (requeueFix now p).last_links_recorded_at = p.last_links_recorded_at := by
  unfold requeueFix
  by_cases hc : (decide (p.crawl_status = PageCrawlStatus.in_progress) &&
      decide (p.last_links_recorded_at = none)) = true
  · simp [hc]
  · simp [hc]

theorem llraOf_requeue {s : Store} (now : Nat) {pid t : Nat} (h : llraOf s pid = some t) :
    llraOf (requeue_interrupted_in_progress_pages s now) pid = some t := by
  unfold requeue_interrupted_in_progress_pages
  exact llraOf_map_pages (requeueFix now) (requeueFix_id now) (requeueFix_llra now) h

theorem llraOf_claim {s : Store} (now : Nat) {pid t : Nat} (h : llraOf s pid = some t) :
    llraOf (claim_next_page_from_queue s now).1 pid = some t := by
  unfold claim_next_page_from_queue
  cases hnq : next_queued_page s with
  | none => exact h
  | some page =>
    exact llraOf_updatePage
      (fun p => { p with crawl_status := PageCrawlStatus.in_progress, last_started_at := some now })
      (fun q => rfl) (fun q => rfl) h

theorem llraOf_expand {s : Store} (p0 now : Nat) {pid t : Nat} (h : llraOf s pid = some t) :
    llraOf (expand_page_from_cached_links s p0 now).1 pid = some t := by
  unfold expand_page_from_cached_links
  cases hg : getPage s p0 with
  | none => exact h
  | some db_page =>
    dsimp only
    by_cases hb : db_page.last_links_recorded_at = none
    · rw [if_pos hb]
      exact h
    · rw [if_neg hb]
      exact llraOf_updatePage
        (fun p => { p with crawl_status := PageCrawlStatus.done, last_finished_at := some now })
        (fun q => rfl) (fun q => rfl)
        (llraOf_foldl_enqueue _ now h)

theorem llraOf_record_error {s : Store} (p0 : Nat) (msg : String) (now : Nat)
    {pid t : Nat} (h : llraOf s pid = some t) :
    llraOf (record_page_error s p0 msg now) pid = some t := by
  unfold record_page_error
  cases hg : getPage s p0 with
  | none => exact h
  | some q =>
    exact llraOf_updatePage
      (fun p => { p with crawl_status := PageCrawlStatus.error, last_error := some msg, last_error_at := some now, last_finished_at := some now })
      (fun q => rfl) (fun q => rfl) h

theorem getPage_isSome_updatePage {s : Store} {pid0 pid : Nat} (f : Page → Page)
    (hid : ∀ p, (f p).mw_page_id = p.mw_page_id)
    (h : (getPage s pid).isSome) : (getPage (updatePage s pid0 f) pid).isSome := by
  obtain ⟨q, hq⟩ := Option.isSome_iff_exists.mp h
  rw [getPage_updatePage s pid0 pid f hid, hq]
  rfl

theorem getPage_isSome_append {s : Store} {pid : Nat} (l : List Page)
    (h : (getPage s pid).isSome) :
    (getPage { s with pages := s.pages ++ l } pid).isSome := by
  obtain ⟨q, hq⟩ := Option.isSome_iff_exists.mp h
  rw [getPage_append, hq]
  rfl

theorem getPage_isSome_get_or_create {s : Store} (ref : MediaWikiPageReference) (now : Nat)
    {pid : Nat} (h : (getPage s pid).isSome) :
    (getPage (get_or_create_page s ref now) pid).isSome := by
  cases hr : getPage s ref.media_wiki_page_id with
  | none => rw [get_or_create_missing now hr]; exact getPage_isSome_append _ h
  | some p =>
    rw [get_or_create_existing now hr]
    by_cases ht : p.title = ref.title
    · rw [if_pos ht]; exact h
    · rw [if_neg ht]
      exact getPage_isSome_updatePage (fun q => { q with title := ref.title }) (fun q => rfl) h

theorem getPage_isSome_enqueue {s : Store} (ref : MediaWikiPageReference) (now : Nat)
    {pid : Nat} (h : (getPage s pid).isSome) :
    (getPage (enqueue_page s ref now) pid).isSome := by
  have h1 := getPage_isSome_get_or_create ref now h
  cases hm : getPage (get_or_create_page s ref now) ref.media_wiki_page_id with
  | none => rw [enqueue_page_eq_of_none hm]; exact h1
  | some page =>
    rw [enqueue_page_eq_of_some hm]
    by_cases hb : page.last_links_recorded_at ≠ none
    · rw [if_pos hb]
      exact getPage_isSome_updatePage (fun p => { p with crawl_status := PageCrawlStatus.done })
        (fun q => rfl) h1
    · rw [if_neg hb]
      by_cases hs : page.crawl_status = PageCrawlStatus.done ∨
          page.crawl_status = PageCrawlStatus.in_progress
      · rw [if_pos hs]; exact h1
      · rw [if_neg hs]
        exact getPage_isSome_updatePage
          (fun p => { p with crawl_status := PageCrawlStatus.queued, last_enqueued_at := some now })
          (fun q => rfl) h1

theorem getPage_isSome_record_links_aux (to_pages : List MediaWikiPageReference)
    (from_id now : Nat) (acc : Store × Nat × Nat) {pid : Nat}
    (h : (getPage acc.1 pid).isSome) :
    (getPage (to_pages.foldl (record_links_step from_id now) acc).1 pid).isSome := by
  induction to_pages generalizing acc with
  | nil => exact h
  | cons r rs ih =>
    refine ih _ ?_
    have h2 := getPage_isSome_enqueue r now (getPage_isSome_get_or_create r now h)
    simp only [record_links_step]
    split
    · exact h2
    · exact h2

theorem getPage_isSome_record_links {s : Store} (from_id : Nat)
    (to_pages : List MediaWikiPageReference) (now : Nat) {pid : Nat}
    (h : (getPage s pid).isSome) :
    (getPage (record_links s from_id to_pages now).1 pid).isSome :=
  getPage_isSome_record_links_aux to_pages from_id now (s, 0, 0) h

/-! ### Properties of `next_queued_page` -/

theorem foldl_choose_mem {q : Page} :
    ∀ (l : List Page) (acc : Option Page),
      l.foldl (fun best p =>
        match best with
        | none => some p
        | some r => if keyLt (queueKey p) (queueKey r) then some p else some r) acc = some q →
      acc = some q ∨ q ∈ l := by
  intro l
  induction l with
  | nil => intro acc h; exact Or.inl h
  | cons a l ih =>
    intro acc h
    rcases ih _ h with h1 | h1
    · cases acc with
      | none =>
        have h2 : a = q := Option.some.inj h1
        exact Or.inr (h2 ▸ List.mem_cons_self a l)
      | some b =>
        have h2 : (if keyLt (queueKey a) (queueKey b) = true then some a else some b) = some q := h1
        by_cases hk : keyLt (queueKey a) (queueKey b) = true
        · rw [if_pos hk] at h2
          exact Or.inr ((Option.some.inj h2) ▸ List.mem_cons_self a l)
        · rw [if_neg hk] at h2
          exact Or.inl h2
    · exact Or.inr (List.mem_cons_of_mem a h1)

theorem next_queued_props {s : Store} {q : Page} (h : next_queued_page s = some q) :
    q ∈ s.pages ∧ q.crawl_status = PageCrawlStatus.queued ∧
      q.last_links_recorded_at = none := by
  rcases foldl_choose_mem (queuedCandidates s) none h with h1 | h1
  · cases h1
  · have hmf := List.mem_filter.mp h1
    refine ⟨hmf.1, ?_, ?_⟩
    · have hb := hmf.2
      simp only [Bool.and_eq_true, decide_eq_true_eq] at hb
      exact hb.1
    · have hb := hmf.2
      simp only [Bool.and_eq_true, decide_eq_true_eq] at hb
      exact hb.2

theorem foldl_choose_isSome :
    ∀ (l : List Page) (acc : Option Page), acc.isSome = true →
      (l.foldl (fun best p =>
        match best with
        | none => some p
        | some r => if keyLt (queueKey p) (queueKey r) then some p else some r) acc).isSome = true := by
  intro l
  induction l with
  | nil => intro acc h; exact h
  | cons a l ih =>
    intro acc h
    cases acc with
    | none => exact ih (some a) rfl
    | some b =>
      refine ih _ ?_
      show (if keyLt (queueKey a) (queueKey b) = true then some a else some b).isSome = true
      by_cases hk : keyLt (queueKey a) (queueKey b) = true
      · rw [if_pos hk]
        rfl
      · rw [if_neg hk]
        rfl

theorem next_queued_isSome_of_mem {s : Store} {q : Page} (hq : q ∈ queuedCandidates s) :
    (next_queued_page s).isSome = true := by
  unfold next_queued_page
  cases hc : queuedCandidates s with
  | nil => rw [hc] at hq; cases hq
  | cons a l => exact foldl_choose_isSome l (some a) rfl

/-! ### Reduction lemmas for seeding and claiming -/

theorem seed_eq_of_some {s : Store} {startRef : MediaWikiPageReference} {now : Nat} {row : Page}
    (h1 : getPage (get_or_create_page s startRef now) startRef.media_wiki_page_id = some row) :
    seed_from_start_page s startRef now =
      if row.last_links_recorded_at = none then
        enqueue_page (get_or_create_page s startRef now) startRef now
      else
        (get_outgoing_pages (get_or_create_page s startRef now) row.mw_page_id).foldl
          (fun st ref => enqueue_page st ref now) (get_or_create_page s startRef now) := by
  simp only [seed_from_start_page]
  rw [h1]

theorem claim_next_some_props {s : Store} {now pid : Nat} {t : String}
    (h : (claim_next_page_from_queue s now).2 = some (pid, t)) :
    ∃ page, next_queued_page s = some page ∧ page.mw_page_id = pid ∧
      (claim_next_page_from_queue s now).1 =
        updatePage s pid (fun p =>
          { p with crawl_status := PageCrawlStatus.in_progress, last_started_at := some now }) := by
  cases hn : next_queued_page s with
  | none =>
    have hc : claim_next_page_from_queue s now = (s, none) := by
      unfold claim_next_page_from_queue
      rw [hn]
    rw [hc] at h
    cases h
  | some page =>
    have hc : claim_next_page_from_queue s now =
        (updatePage s page.mw_page_id (fun p =>
          { p with crawl_status := PageCrawlStatus.in_progress, last_started_at := some now }),
         some (page.mw_page_id, page.title)) := by
      unfold claim_next_page_from_queue
      rw [hn]
    rw [hc] at h
    have hp : page.mw_page_id = pid := congrArg Prod.fst (Option.some.inj h)
    refine ⟨page, rfl, hp, ?_⟩
    rw [hc, ← hp]

/-! ### Effects of folding `enqueue_page` over a list of references -/

theorem foldl_enqueue_other (refs : List MediaWikiPageReference) (now pid : Nat) {s : Store}
    (hall : ∀ r ∈ refs, r.media_wiki_page_id ≠ pid) :
    getPage (refs.foldl (fun st ref => enqueue_page st ref now) s) pid = getPage s pid := by
  induction refs generalizing s with
  | nil => rfl
  | cons r rs ih =>
    rw [List.foldl_cons]
    rw [ih (fun x hx => hall x (List.mem_cons_of_mem r hx))]
    exact enqueue_page_other (Ne.symm (hall r (List.mem_cons_self r rs)))

theorem foldl_enqueue_crawled_target (refs : List MediaWikiPageReference) (now pid : Nat)
    {s : Store} {p : Page}
    (h : getPage s pid = some p) (hl : p.last_links_recorded_at ≠ none) :
    ∃ q, getPage (refs.foldl (fun st ref => enqueue_page st ref now) s) pid = some q ∧
      q.last_links_recorded_at = p.last_links_recorded_at ∧
      q.last_enqueued_at = p.last_enqueued_at ∧
      (q.crawl_status = p.crawl_status ∨ q.crawl_status = PageCrawlStatus.done) := by
  induction refs generalizing s p with
  | nil => exact ⟨p, h, rfl, rfl, Or.inl rfl⟩
  | cons r rs ih =>
    rw [List.foldl_cons]
    by_cases hb : r.media_wiki_page_id = pid
    · have hh : getPage s r.media_wiki_page_id = some p := by rw [hb]; exact h
      obtain ⟨q1, hq1, hq1s, hq1l, hq1e⟩ := enqueue_page_crawled hh hl
      have hq1' : getPage (enqueue_page s r now) pid = some q1 := by rw [← hb]; exact hq1
      have hl1 : q1.last_links_recorded_at ≠ none := by rw [hq1l]; exact hl
      obtain ⟨q, hq, hql, hqe, hqs⟩ := ih hq1' hl1
      refine ⟨q, hq, by rw [hql, hq1l], by rw [hqe, hq1e], Or.inr ?_⟩
      rcases hqs with h' | h'
      · rw [h', hq1s]
      · exact h'
    · have heq : getPage (enqueue_page s r now) pid = some p := by
        rw [enqueue_page_other (fun hx => hb (hx.symm))]
        exact h
      exact ih heq hl

theorem foldl_enqueue_eligible_target (refs : List MediaWikiPageReference) (now : Nat)
    {s : Store} {r0 : MediaWikiPageReference} {rp : Page}
    (hmem : r0 ∈ refs)
    (hdist : refs.Pairwise (fun a b => a.media_wiki_page_id ≠ b.media_wiki_page_id))
    (h : getPage s r0.media_wiki_page_id = some rp)
    (hl : rp.last_links_recorded_at = none)
    (hd : rp.crawl_status ≠ PageCrawlStatus.done)
    (hi : rp.crawl_status ≠ PageCrawlStatus.in_progress) :
    ∃ q, getPage (refs.foldl (fun st ref => enqueue_page st ref now) s)
        r0.media_wiki_page_id = some q ∧
      q.crawl_status = PageCrawlStatus.queued ∧
      q.last_enqueued_at = some now := by
  induction refs generalizing s with
  | nil => cases hmem
  | cons r rs ih =>
    rw [List.foldl_cons]
    rcases List.mem_cons.mp hmem with hr | hr
    · obtain ⟨q, hq, hqs, hqe, _⟩ := enqueue_page_eligible h hl hd hi
      have hrest : ∀ x ∈ rs, x.media_wiki_page_id ≠ r0.media_wiki_page_id := by
        intro x hx
        have := (List.pairwise_cons.mp hdist).1 x hx
        rw [← hr] at this
        exact Ne.symm this
      rw [foldl_enqueue_other rs now r0.media_wiki_page_id hrest]
      have hq' : getPage (enqueue_page s r now) r0.media_wiki_page_id = some q := by
        rw [← hr]; exact hq
      exact ⟨q, hq', hqs, hqe⟩
    · have hne : r.media_wiki_page_id ≠ r0.media_wiki_page_id :=
        (List.pairwise_cons.mp hdist).1 r0 hr
      have h' : getPage (enqueue_page s r now) r0.media_wiki_page_id = some rp := by
        rw [enqueue_page_other hne.symm]
        exact h
      exact ih hr (List.pairwise_cons.mp hdist).2 h'

theorem outgoing_ids_pairwise (s : Store) (pid : Nat)
    (hnodup : (s.links.map (fun l => (l.from_page_id, l.to_page_id))).Nodup) :
    (get_outgoing_pages s pid).Pairwise
      (fun a b => a.media_wiki_page_id ≠ b.media_wiki_page_id) := by
  have h0 : s.links.Pairwise
      (fun a b => (a.from_page_id, a.to_page_id) ≠ (b.from_page_id, b.to_page_id)) :=
    List.pairwise_map.mp hnodup
  have h1 : (s.links.filter (fun l => l.from_page_id == pid)).Pairwise
      (fun a b => (a.from_page_id, a.to_page_id) ≠ (b.from_page_id, b.to_page_id)) :=
    h0.sublist (List.filter_sublist s.links)
  have h2 : (s.links.filter (fun l => l.from_page_id == pid)).Pairwise
      (fun a b => a.to_page_id ≠ b.to_page_id) := by
    refine h1.imp_of_mem ?_
    intro a b ha hb hab hto
    have ha' : a.from_page_id = pid := by
      have := (List.mem_filter.mp ha).2
      simpa using this
    have hb' : b.from_page_id = pid := by
      have := (List.mem_filter.mp hb).2
      simpa using this
    exact hab (by rw [ha', hb', hto])
  unfold get_outgoing_pages
  refine List.pairwise_filterMap.mpr ?_
  refine h2.imp_of_mem ?_
  intro a b _ _ hab x hx y hy
  cases hga : getPage s a.to_page_id with
  | none => rw [hga] at hx; cases hx
  | some pa =>
    rw [hga] at hx
    cases hgb : getPage s b.to_page_id with
    | none => rw [hgb] at hy; cases hy
    | some pb =>
      rw [hgb] at hy
      have hxa : x = { media_wiki_page_id := pa.mw_page_id, title := pa.title } := by
        have hx' := Option.mem_def.mp hx
        simpa using hx'.symm
      have hya : y = { media_wiki_page_id := pb.mw_page_id, title := pb.title } := by
        have hy' := Option.mem_def.mp hy
        simpa using hy'.symm
      have hka := getPage_key hga
      have hkb := getPage_key hgb
      rw [hxa, hya]
      intro hcontra
      have hcc : pa.mw_page_id = pb.mw_page_id := hcontra
      rw [hka, hkb] at hcc
      exact hab hcc

/-! ### Filter behaviour of `upsert_link` -/

theorem upsert_link_of_filter_nil {links : List PageLink} {fid tid now : Nat}
    (h : links.filter (fun l => l.from_page_id == fid && l.to_page_id == tid) = []) :
    upsert_link links fid tid now
      = (links ++ [{ from_page_id := fid, to_page_id := tid, last_seen_at := now }], true) := by
  induction links with
  | nil => rfl
  | cons l rest ih =>
    rw [List.filter_cons] at h
    by_cases hc : (l.from_page_id == fid && l.to_page_id == tid) = true
    · rw [if_pos hc] at h
      cases h
    · rw [if_neg hc] at h
      simp only [upsert_link]
      rw [if_neg hc, ih h]
      rfl

theorem upsert_link_of_filter_single {links : List PageLink} {fid tid now : Nat} {e : PageLink}
    (h : links.filter (fun l => l.from_page_id == fid && l.to_page_id == tid) = [e]) :
    (upsert_link links fid tid now).1.filter
        (fun l => l.from_page_id == fid && l.to_page_id == tid)
      = [{ from_page_id := fid, to_page_id := tid, last_seen_at := now }] ∧
    (upsert_link links fid tid now).2 = false := by
  induction links with
  | nil => cases h
  | cons l rest ih =>
    rw [List.filter_cons] at h
    by_cases hc : (l.from_page_id == fid && l.to_page_id == tid) = true
    · rw [if_pos hc] at h
      have hrest : rest.filter (fun l => l.from_page_id == fid && l.to_page_id == tid) = [] :=
        (List.cons.injEq _ _ _ _ ▸ h).2
      have hf : l.from_page_id = fid := by
        have := (Bool.and_eq_true _ _ ▸ hc).1
        simpa using this
      have ht2 : l.to_page_id = tid := by
        have := (Bool.and_eq_true _ _ ▸ hc).2
        simpa using this
      simp only [upsert_link]
      rw [if_pos hc]
      constructor
      · show ({ l with last_seen_at := now } :: rest).filter
            (fun l => l.from_page_id == fid && l.to_page_id == tid) = _
        rw [List.filter_cons]
        have hc' : (({ l with last_seen_at := now } : PageLink).from_page_id == fid &&
            ({ l with last_seen_at := now } : PageLink).to_page_id == tid) = true := hc
        rw [if_pos hc', hrest]
        have hrow : ({ l with last_seen_at := now } : PageLink)
            = { from_page_id := fid, to_page_id := tid, last_seen_at := now } := by
          cases l
          simp_all
        rw [hrow]
      · rfl
    · rw [if_neg hc] at h
      obtain ⟨h1, h2⟩ := ih h
      simp only [upsert_link]
      rw [if_neg hc]
      constructor
      · show (l :: (upsert_link rest fid tid now).1).filter
            (fun l => l.from_page_id == fid && l.to_page_id == tid) = _
        rw [List.filter_cons, if_neg hc, h1]
      · exact h2

/-! ### Claim theorems -/

/-- C1: Crawl-once — once a page's `last_links_recorded_at` is non-null,
any subsequent `enqueue_page` call on it forces `crawl_status = done` and
returns without re-queuing (its `last_enqueued_at` and
`last_links_recorded_at` are untouched), and the orchestrator's
per-iteration cache-expansion check (`walk_fetch_title`) issues no fetch
for the page, neither before nor after the enqueue. -/
theorem crawl_once (s : Store) (ref : MediaWikiPageReference) (now : Nat) (p : Page)
    (h : getPage s ref.media_wiki_page_id = some p)
    (hl : p.last_links_recorded_at ≠ none) :
    (∃ q, getPage (enqueue_page s ref now) ref.media_wiki_page_id = some q ∧
        q.crawl_status = PageCrawlStatus.done ∧
        q.last_links_recorded_at = p.last_links_recorded_at ∧
        q.last_enqueued_at = p.last_enqueued_at) ∧
    walk_fetch_title s ref.media_wiki_page_id = none ∧
    walk_fetch_title (enqueue_page s ref now) ref.media_wiki_page_id = none := by
  obtain ⟨q, hq, hqs, hql, hqe⟩ := enqueue_page_crawled h hl
  refine ⟨⟨q, hq, hqs, hql, hqe⟩, ?_, ?_⟩
  · unfold walk_fetch_title
    rw [h]
    dsimp only
    rw [if_neg hl]
  · unfold walk_fetch_title
    rw [hq]
    dsimp only
    rw [if_neg (by rw [hql]; exact hl)]

/-- Witness for C1: the crawled page 1 in `storeCrawled`. -/
theorem crawl_once_witness :
    (getPage storeCrawled 1 = some crawledPage ∧
      crawledPage.last_links_recorded_at ≠ none) ∧
    ((∃ q, getPage (enqueue_page storeCrawled ⟨1, "A"⟩ 10) 1 = some q ∧
        q.crawl_status = PageCrawlStatus.done ∧
        q.last_links_recorded_at = crawledPage.last_links_recorded_at ∧
        q.last_enqueued_at = crawledPage.last_enqueued_at) ∧
      walk_fetch_title storeCrawled 1 = none ∧
      walk_fetch_title (enqueue_page storeCrawled ⟨1, "A"⟩ 10) 1 = none) :=
  ⟨⟨by decide, by decide⟩,
    crawl_once storeCrawled ⟨1, "A"⟩ 10 crawledPage (by decide) (by decide)⟩

/-- C2: Restart safety — for a page `in_progress` with no recorded links,
`requeue_interrupted_in_progress_pages` sets it back to `queued` and
refreshes `last_enqueued_at`, after which the page satisfies
`next_queued_page`'s selection predicate (it is among the queued
candidates) and the queue is non-empty, so `next_queued_page` can select
it again. -/
theorem restart_safety (s : Store) (now pid : Nat) (p : Page)
    (h : getPage s pid = some p)
    (hs : p.crawl_status = PageCrawlStatus.in_progress)
    (hl : p.last_links_recorded_at = none) :
    ∃ q, getPage (requeue_interrupted_in_progress_pages s now) pid = some q ∧
      q.crawl_status = PageCrawlStatus.queued ∧
      q.last_enqueued_at = some now ∧
      q ∈ queuedCandidates (requeue_interrupted_in_progress_pages s now) ∧
      (next_queued_page (requeue_interrupted_in_progress_pages s now)).isSome = true := by
  have hfind : getPage (requeue_interrupted_in_progress_pages s now) pid
      = some (requeueFix now p) := by
    show (s.pages.map (requeueFix now)).find? (fun q => q.mw_page_id == pid)
      = some (requeueFix now p)
    rw [find?_map_key s.pages (requeueFix now) (requeueFix_id now) pid]
    have h' : s.pages.find? (fun q => q.mw_page_id == pid) = some p := h
    rw [h']
    rfl
  have hgp : requeueFix now p
      = { p with crawl_status := PageCrawlStatus.queued, last_enqueued_at := some now } := by
    unfold requeueFix
    rw [if_pos (by simp [hs, hl])]
  have hmem : requeueFix now p ∈ (requeue_interrupted_in_progress_pages s now).pages := by
    show requeueFix now p ∈ s.pages.map (requeueFix now)
    exact List.mem_map_of_mem (requeueFix now) (getPage_mem h)
  have hcand : requeueFix now p ∈ queuedCandidates (requeue_interrupted_in_progress_pages s now) := by
    refine List.mem_filter.mpr ⟨hmem, ?_⟩
    rw [hgp]
    simp [hl]
  exact ⟨requeueFix now p, hfind, by rw [hgp], by rw [hgp], hcand,
    next_queued_isSome_of_mem hcand⟩

/-- Witness for C2: the interrupted page 3 in `storeInterrupted`. -/
theorem restart_safety_witness :
    (getPage storeInterrupted 3 = some interruptedPage ∧
      interruptedPage.crawl_status = PageCrawlStatus.in_progress ∧
      interruptedPage.last_links_recorded_at = none) ∧
    (∃ q, getPage (requeue_interrupted_in_progress_pages storeInterrupted 10) 3 = some q ∧
      q.crawl_status = PageCrawlStatus.queued ∧
      q.last_enqueued_at = some 10 ∧
      q ∈ queuedCandidates (requeue_interrupted_in_progress_pages storeInterrupted 10) ∧
      (next_queued_page (requeue_interrupted_in_progress_pages storeInterrupted 10)).isSome
        = true) :=
  ⟨⟨by decide, by decide, by decide⟩,
    restart_safety storeInterrupted 10 3 interruptedPage (by decide) (by decide) (by decide)⟩

/-- C4: Idempotent enqueue — enqueueing a page that is already `queued` or
already `in_progress` (links not yet recorded) leaves `crawl_status`
unchanged; `last_enqueued_at` is untouched for an in-progress page and is
refreshed (to now) only in the case where the page (re-)enters the queued
state. -/
theorem idempotent_enqueue (s : Store) (ref : MediaWikiPageReference) (now : Nat) (p : Page)
    (h : getPage s ref.media_wiki_page_id = some p)
    (hl : p.last_links_recorded_at = none)
    (hs : p.crawl_status = PageCrawlStatus.queued ∨
      p.crawl_status = PageCrawlStatus.in_progress) :
    ∃ q, getPage (enqueue_page s ref now) ref.media_wiki_page_id = some q ∧
      q.crawl_status = p.crawl_status ∧
      q.last_links_recorded_at = none ∧
      (p.crawl_status = PageCrawlStatus.in_progress → q.last_enqueued_at = p.last_enqueued_at) ∧
      (p.crawl_status = PageCrawlStatus.queued → q.last_enqueued_at = some now) := by
  rcases hs with hq | hp
  · obtain ⟨q, hget, hqs, hqe, hql⟩ := enqueue_page_eligible h hl
      (by rw [hq]; intro hc; cases hc) (by rw [hq]; intro hc; cases hc)
    refine ⟨q, hget, by rw [hqs, hq], hql, ?_, fun _ => hqe⟩
    intro hip
    rw [hq] at hip
    exact absurd hip (by decide)
  · obtain ⟨q, hget, hqs, hqe, hql⟩ := enqueue_page_blocked h hl (Or.inr hp)
    refine ⟨q, hget, hqs, hql, fun _ => hqe, ?_⟩
    intro hqd
    exact absurd (hp.symm.trans hqd) (by decide)

/-- Witness for C4: enqueueing the already-queued page 2 of `storeTwo`. -/
theorem idempotent_enqueue_witness :
    (getPage storeTwo 2 = some queuedPage ∧
      queuedPage.last_links_recorded_at = none ∧
      (queuedPage.crawl_status = PageCrawlStatus.queued ∨
        queuedPage.crawl_status = PageCrawlStatus.in_progress)) ∧
    (∃ q, getPage (enqueue_page storeTwo ⟨2, "B"⟩ 10) 2 = some q ∧
      q.crawl_status = queuedPage.crawl_status ∧
      q.last_links_recorded_at = none ∧
      (queuedPage.crawl_status = PageCrawlStatus.in_progress →
        q.last_enqueued_at = queuedPage.last_enqueued_at) ∧
      (queuedPage.crawl_status = PageCrawlStatus.queued → q.last_enqueued_at = some 10)) :=
  ⟨⟨by decide, by decide, by decide⟩,
    idempotent_enqueue storeTwo ⟨2, "B"⟩ 10 queuedPage (by decide) (by decide) (by decide)⟩

/-- C8: Error pages are not retried automatically — whatever the store,
any page selected by `next_queued_page` has `crawl_status = queued`; in
particular a page with `crawl_status = error` is never selected, so it is
only fetched again after something external sets it back to `queued`. -/
theorem error_pages_not_retried (s : Store) (q : Page)
    (h : next_queued_page s = some q) :
    q.crawl_status = PageCrawlStatus.queued ∧ q.crawl_status ≠ PageCrawlStatus.error := by
  have hp := next_queued_props h
  exact ⟨hp.2.1, by rw [hp.2.1]; decide⟩

/-- Witness for C8: in a store holding a queued page and an errored page,
`next_queued_page` selects the queued one. -/
theorem error_pages_not_retried_witness :
    (next_queued_page storeQueuedErrored = some queuedPage) ∧
    (queuedPage.crawl_status = PageCrawlStatus.queued ∧
      queuedPage.crawl_status ≠ PageCrawlStatus.error) :=
  ⟨by decide, error_pages_not_retried storeQueuedErrored queuedPage (by decide)⟩

/-- C10: Frame invariant — none of `enqueue_page`,
`requeue_interrupted_in_progress_pages`, `claim_next_page_from_queue`,
`expand_page_from_cached_links`, `record_page_error` writes
`last_links_recorded_at`: once it is non-null for a page it keeps the
same non-null value under any sequence of these core operations. -/
theorem llra_frame_invariant (ops : List CoreOp) (s : Store) (pid t : Nat)
    (h : llraOf s pid = some t) :
    llraOf (run_core_ops ops s) pid = some t := by
  induction ops generalizing s with
  | nil => exact h
  | cons op ops ih =>
    refine ih _ ?_
    cases op with
    | enqueue ref now => exact llraOf_enqueue ref now h
    | requeue now => exact llraOf_requeue now h
    | claim now => exact llraOf_claim now h
    | expand p0 now => exact llraOf_expand p0 now h
    | recordError p0 msg now => exact llraOf_record_error p0 msg now h

/-- Witness for C10: a sequence touching all five operations leaves
page 1's recorded-links timestamp intact. -/
theorem llra_frame_invariant_witness :
    (llraOf storeTwo 1 = some 5) ∧
    llraOf (run_core_ops
      [CoreOp.enqueue ⟨1, "A"⟩ 10, CoreOp.requeue 11, CoreOp.claim 12,
        CoreOp.expand 1 13, CoreOp.recordError 1 "boom" 14,
        CoreOp.enqueue ⟨2, "B"⟩ 15] storeTwo) 1 = some 5 :=
  ⟨by decide,
    llra_frame_invariant
      [CoreOp.enqueue ⟨1, "A"⟩ 10, CoreOp.requeue 11, CoreOp.claim 12,
        CoreOp.expand 1 13, CoreOp.recordError 1 "boom" 14,
        CoreOp.enqueue ⟨2, "B"⟩ 15] storeTwo 1 5 (by decide)⟩

/-- C3: Exclusive claim — when two sequential `claim_next_page_from_queue`
calls both return a page (with no re-queue in between), they return
different `pageID`s: the first claim commits `crawl_status = in_progress`
on its row, and `next_queued_page`'s predicate selects only `queued`
rows, so the second claim cannot select the same row. -/
theorem exclusive_claim (s : Store) (n1 n2 pid1 pid2 : Nat) (t1 t2 : String)
    (h1 : (claim_next_page_from_queue s n1).2 = some (pid1, t1))
    (h2 : (claim_next_page_from_queue (claim_next_page_from_queue s n1).1 n2).2
      = some (pid2, t2)) :
    pid2 ≠ pid1 := by
  obtain ⟨page1, hn1, hp1, hs1⟩ := claim_next_some_props h1
  rw [hs1] at h2
  obtain ⟨page2, hn2, hp2, _⟩ := claim_next_some_props h2
  have hprops := next_queued_props hn2
  intro heq
  have hmem : page2 ∈ s.pages.map
      (fun p => if p.mw_page_id == pid1 then
        { p with crawl_status := PageCrawlStatus.in_progress, last_started_at := some n1 }
      else p) := hprops.1
  obtain ⟨x, hx, hgx⟩ := List.mem_map.mp hmem
  by_cases hb : x.mw_page_id = pid1
  · rw [if_pos (by simp [hb])] at hgx
    have hst : page2.crawl_status = PageCrawlStatus.in_progress := by
      rw [← hgx]
    rw [hprops.2.1] at hst
    exact absurd hst (by decide)
  · rw [if_neg (by simp [hb])] at hgx
    rw [hgx] at hb
    exact hb (hp2.trans (heq.symm.symm ▸ rfl))

/-- Witness for C3: two sequential claims on a store with two queued pages
return pages 2 then 6. -/
theorem exclusive_claim_witness :
    ((claim_next_page_from_queue storeTwoQueued 10).2 = some (2, "B") ∧
      (claim_next_page_from_queue (claim_next_page_from_queue storeTwoQueued 10).1 11).2
        = some (6, "F")) ∧
    (6 : Nat) ≠ 2 :=
  ⟨⟨by decide, by decide⟩,
    exclusive_claim storeTwoQueued 10 11 2 6 "B" "F" (by decide) (by decide)⟩

/-- C5: Persist postconditions — for an existing page row, a successful
`persist_fetched_links` returns a new store (one committed transition) in
which the row has `last_crawled_at = last_links_recorded_at = now`, both
error fields cleared to null, `crawl_status = done`, and
`last_finished_at = now`. -/
theorem persist_postconditions (s : Store) (pid : Nat) (fetch : MediaWikiFetchResult)
    (now : Nat) (p : Page) (h : getPage s pid = some p) :
    ∃ s' a e, persist_fetched_links s pid fetch now = some (s', a, e) ∧
      ∃ q, getPage s' pid = some q ∧
        q.last_crawled_at = some now ∧
        q.last_links_recorded_at = some now ∧
        q.last_error = none ∧
        q.last_error_at = none ∧
        q.crawl_status = PageCrawlStatus.done ∧
        q.last_finished_at = some now := by
  have hsome0 : (getPage s pid).isSome = true := by rw [h]; rfl
  have hsome1 : (getPage (if fetch.page.title = p.title then s
      else updatePage s pid (fun q => { q with title := fetch.page.title })) pid).isSome
      = true := by
    by_cases ht : fetch.page.title = p.title
    · rw [if_pos ht]; exact hsome0
    · rw [if_neg ht]
      exact getPage_isSome_updatePage (fun q => { q with title := fetch.page.title })
        (fun q => rfl) hsome0
  have hsome2 := getPage_isSome_record_links pid fetch.links now hsome1
  obtain ⟨q0, hq0⟩ := Option.isSome_iff_exists.mp hsome2
  unfold persist_fetched_links
  rw [h]
  dsimp only
  refine ⟨_, _, _, rfl, ?_⟩
  exact ⟨_, getPage_updatePage_self (fun q => rfl) hq0, rfl, rfl, rfl, rfl, rfl, rfl⟩

/-- Witness for C5: persisting a fetch result for the queued page 2. -/
theorem persist_postconditions_witness :
    (getPage storeTwo 2 = some queuedPage) ∧
    (∃ s' a e, persist_fetched_links storeTwo 2 ⟨⟨2, "B"⟩, [⟨7, "G"⟩]⟩ 10 = some (s', a, e) ∧
      ∃ q, getPage s' 2 = some q ∧
        q.last_crawled_at = some 10 ∧
        q.last_links_recorded_at = some 10 ∧
        q.last_error = none ∧
        q.last_error_at = none ∧
        q.crawl_status = PageCrawlStatus.done ∧
        q.last_finished_at = some 10) :=
  ⟨by decide, persist_postconditions storeTwo 2 ⟨⟨2, "B"⟩, [⟨7, "G"⟩]⟩ 10 queuedPage (by decide)⟩

/-- C6: Edge dedup — starting from a link table in which the (from, to)
pair occupies at most one row (the store's uniqueness constraint),
upserting the pair twice leaves exactly one matching row, whose
`last_seen_at` is the second call's timestamp; the first call inserts
when the pair is absent, and the second call reports an update, not an
insert. -/
theorem edge_dedup (links : List PageLink) (fid tid n1 n2 : Nat)
    (h : (links.filter (fun l => l.from_page_id == fid && l.to_page_id == tid)).length ≤ 1) :
    ((upsert_link (upsert_link links fid tid n1).1 fid tid n2).1.filter
        (fun l => l.from_page_id == fid && l.to_page_id == tid))
      = [{ from_page_id := fid, to_page_id := tid, last_seen_at := n2 }] ∧
    (upsert_link (upsert_link links fid tid n1).1 fid tid n2).2 = false ∧
    (links.filter (fun l => l.from_page_id == fid && l.to_page_id == tid) = [] →
      (upsert_link links fid tid n1).2 = true) := by
  have h1 : (upsert_link links fid tid n1).1.filter
      (fun l => l.from_page_id == fid && l.to_page_id == tid)
      = [{ from_page_id := fid, to_page_id := tid, last_seen_at := n1 }] := by
    cases hf : links.filter (fun l => l.from_page_id == fid && l.to_page_id == tid) with
    | nil =>
      rw [upsert_link_of_filter_nil hf]
      show (links ++ [({ from_page_id := fid, to_page_id := tid, last_seen_at := n1 } : PageLink)]).filter
        (fun l : PageLink => l.from_page_id == fid && l.to_page_id == tid) = _
      rw [List.filter_append, hf]
      simp
    | cons e rest =>
      have hrest : rest = [] := by
        rw [hf] at h
        simpa using h
      subst hrest
      exact (upsert_link_of_filter_single hf).1
  obtain ⟨ha, hb⟩ := upsert_link_of_filter_single h1
  refine ⟨ha, hb, ?_⟩
  intro hnil
  rw [upsert_link_of_filter_nil hnil]

/-- Witness for C6: upserting the pair (1, 2) twice into an empty table. -/
theorem edge_dedup_witness :
    (([] : List PageLink).filter
        (fun l => l.from_page_id == 1 && l.to_page_id == 2)).length ≤ 1 ∧
    (((upsert_link (upsert_link [] 1 2 5).1 1 2 9).1.filter
        (fun l => l.from_page_id == 1 && l.to_page_id == 2))
      = [{ from_page_id := 1, to_page_id := 2, last_seen_at := 9 }] ∧
    (upsert_link (upsert_link [] 1 2 5).1 1 2 9).2 = false ∧
    (([] : List PageLink).filter (fun l => l.from_page_id == 1 && l.to_page_id == 2) = [] →
      (upsert_link [] 1 2 5).2 = true)) :=
  ⟨by decide, edge_dedup [] 1 2 5 9 (by decide)⟩

/-- C7: Start-page re-seed — seeding from an already-crawled start page
(`last_links_recorded_at` non-null) enqueues each of its currently known
outgoing pages (any eligible one ends up `queued` with
`last_enqueued_at = now`) while the start page itself is neither
re-enqueued nor re-fetched: its recorded-links timestamp and
`last_enqueued_at` are untouched and its status is never set to `queued`
(at most forced to `done`).  If instead the start page has no recorded
links, seeding enqueues the start page itself as a normal crawl target.
The outgoing pages are read from the store after the initial
get-or-create (same edges; only the start row's title may have been
refreshed), and the store's (from, to) uniqueness constraint is assumed. -/
theorem start_page_reseed (s : Store) (startRef : MediaWikiPageReference) (now : Nat) (p : Page)
    (h : getPage s startRef.media_wiki_page_id = some p)
    (hnodup : (s.links.map (fun l => (l.from_page_id, l.to_page_id))).Nodup) :
    (p.last_links_recorded_at ≠ none →
      (∃ q, getPage (seed_from_start_page s startRef now) startRef.media_wiki_page_id
          = some q ∧
        q.last_links_recorded_at = p.last_links_recorded_at ∧
        q.last_enqueued_at = p.last_enqueued_at ∧
        (q.crawl_status = p.crawl_status ∨ q.crawl_status = PageCrawlStatus.done)) ∧
      (∀ r rp,
        r ∈ get_outgoing_pages (get_or_create_page s startRef now)
          startRef.media_wiki_page_id →
        getPage (get_or_create_page s startRef now) r.media_wiki_page_id = some rp →
        rp.last_links_recorded_at = none →
        rp.crawl_status ≠ PageCrawlStatus.done →
        rp.crawl_status ≠ PageCrawlStatus.in_progress →
        ∃ q, getPage (seed_from_start_page s startRef now) r.media_wiki_page_id = some q ∧
          q.crawl_status = PageCrawlStatus.queued ∧
          q.last_enqueued_at = some now)) ∧
    (p.last_links_recorded_at = none →
      p.crawl_status ≠ PageCrawlStatus.done →
      p.crawl_status ≠ PageCrawlStatus.in_progress →
      ∃ q, getPage (seed_from_start_page s startRef now) startRef.media_wiki_page_id
          = some q ∧
        q.crawl_status = PageCrawlStatus.queued ∧
        q.last_enqueued_at = some now) := by
  have h1 := getPage_get_or_create_self now h
  have hfl : (if p.title = startRef.title then p
      else { p with title := startRef.title }).last_links_recorded_at
      = p.last_links_recorded_at := by
    by_cases ht : p.title = startRef.title
    · rw [if_pos ht]
    · rw [if_neg ht]
  have hfe : (if p.title = startRef.title then p
      else { p with title := startRef.title }).last_enqueued_at = p.last_enqueued_at := by
    by_cases ht : p.title = startRef.title
    · rw [if_pos ht]
    · rw [if_neg ht]
  have hfs : (if p.title = startRef.title then p
      else { p with title := startRef.title }).crawl_status = p.crawl_status := by
    by_cases ht : p.title = startRef.title
    · rw [if_pos ht]
    · rw [if_neg ht]
  have hkey1 : (if p.title = startRef.title then p
      else { p with title := startRef.title }).mw_page_id = startRef.media_wiki_page_id :=
    getPage_key h1
  have hlinks : (get_or_create_page s startRef now).links = s.links := by
    rw [get_or_create_existing now h]
    by_cases ht : p.title = startRef.title
    · rw [if_pos ht]
    · rw [if_neg ht]
      rfl
  have hnodup1 : ((get_or_create_page s startRef now).links.map
      (fun l => (l.from_page_id, l.to_page_id))).Nodup := by
    rw [hlinks]
    exact hnodup
  have hseed := seed_eq_of_some h1
  constructor
  · intro hl
    have hl1 : (if p.title = startRef.title then p
        else { p with title := startRef.title }).last_links_recorded_at ≠ none := by
      rw [hfl]
      exact hl
    have hseed2 : seed_from_start_page s startRef now
        = (get_outgoing_pages (get_or_create_page s startRef now)
            startRef.media_wiki_page_id).foldl
            (fun st ref => enqueue_page st ref now) (get_or_create_page s startRef now) := by
      rw [hseed, if_neg hl1, hkey1]
    constructor
    · rw [hseed2]
      obtain ⟨q, hq, hql, hqe, hqs⟩ :=
        foldl_enqueue_crawled_target
          (get_outgoing_pages (get_or_create_page s startRef now) startRef.media_wiki_page_id)
          now startRef.media_wiki_page_id h1 hl1
      refine ⟨q, hq, by rw [hql, hfl], by rw [hqe, hfe], ?_⟩
      rcases hqs with h' | h'
      · exact Or.inl (by rw [h', hfs])
      · exact Or.inr h'
    · intro r rp hrmem hrget hrl hrd hri
      rw [hseed2]
      have hdist := outgoing_ids_pairwise (get_or_create_page s startRef now)
        startRef.media_wiki_page_id hnodup1
      exact foldl_enqueue_eligible_target _ now hrmem hdist hrget hrl hrd hri
  · intro hl hd hi
    have hl1 : (if p.title = startRef.title then p
        else { p with title := startRef.title }).last_links_recorded_at = none := by
      rw [hfl]
      exact hl
    have hseed2 : seed_from_start_page s startRef now
        = enqueue_page (get_or_create_page s startRef now) startRef now := by
      rw [hseed, if_pos hl1]
    rw [hseed2]
    obtain ⟨q, hq, hq1, hq2, _⟩ :=
      enqueue_page_eligible h1 hl1 (by rw [hfs]; exact hd) (by rw [hfs]; exact hi)
    exact ⟨q, hq, hq1, hq2⟩

/-- Witness for C7: re-seeding from the crawled start page 1 of
`storeReseed`, whose known outgoing pages are 2 and 5. -/
theorem start_page_reseed_witness :
    (getPage storeReseed 1 = some crawledPage ∧
      (storeReseed.links.map (fun l => (l.from_page_id, l.to_page_id))).Nodup) ∧
    ((crawledPage.last_links_recorded_at ≠ none →
      (∃ q, getPage (seed_from_start_page storeReseed ⟨1, "A"⟩ 10) 1 = some q ∧
        q.last_links_recorded_at = crawledPage.last_links_recorded_at ∧
        q.last_enqueued_at = crawledPage.last_enqueued_at ∧
        (q.crawl_status = crawledPage.crawl_status ∨
          q.crawl_status = PageCrawlStatus.done)) ∧
      (∀ r rp,
        r ∈ get_outgoing_pages (get_or_create_page storeReseed ⟨1, "A"⟩ 10) 1 →
        getPage (get_or_create_page storeReseed ⟨1, "A"⟩ 10) r.media_wiki_page_id
          = some rp →
        rp.last_links_recorded_at = none →
        rp.crawl_status ≠ PageCrawlStatus.done →
        rp.crawl_status ≠ PageCrawlStatus.in_progress →
        ∃ q, getPage (seed_from_start_page storeReseed ⟨1, "A"⟩ 10) r.media_wiki_page_id
            = some q ∧
          q.crawl_status = PageCrawlStatus.queued ∧
          q.last_enqueued_at = some 10)) ∧
    (crawledPage.last_links_recorded_at = none →
      crawledPage.crawl_status ≠ PageCrawlStatus.done →
      crawledPage.crawl_status ≠ PageCrawlStatus.in_progress →
      ∃ q, getPage (seed_from_start_page storeReseed ⟨1, "A"⟩ 10) 1 = some q ∧
        q.crawl_status = PageCrawlStatus.queued ∧
        q.last_enqueued_at = some 10)) :=
  ⟨⟨by decide, by decide⟩,
    start_page_reseed storeReseed ⟨1, "A"⟩ 10 crawledPage (by decide) (by decide)⟩

/-- C9 (failing input): in `src/main.py`'s persist step, when the fetch
canonical title "B" differs from the claimed row's stored title "A" and a
different pre-existing row already holds "B", the collision branch does
record the duplicate-title error on the claimed row — but the very same
persist step then unconditionally clears `last_error` and
`last_error_at` before committing, so after the iteration the row shows
no error at all (it is simply `done` with links recorded).  The recorded
error is therefore NOT observable on the row once the iteration
completes, contradicting the claim (and the source comment "mark this
one with an error so it's noticeable"). -/
theorem duplicate_title_error_cleared :
    ("B" ≠ collisionClaimed.title ∧
      MainScript.getByTitle collisionStore "B" = some collisionExisting ∧
      collisionExisting.id ≠ collisionClaimed.id) ∧
    (MainScript.getById (MainScript.persist_after_fetch collisionStore 1 "B" [] 10) 1).map
        (fun p => (p.last_error, p.last_error_at, p.crawl_status, p.last_links_recorded_at))
      = some (none, none, PageCrawlStatus.done, some 10) :=
  ⟨⟨by decide, by decide, by decide⟩, by decide⟩

end WikipediaWalker
